import Mathlib

/-!
Verification of the style-resolution core of the `chroma` syntax-highlighting
library (`style.go`) against its natural-language specification.

The Go source is shallowly embedded: pure Go functions become Lean functions,
Go strings are modelled through their character lists (`String.data`), the
`Style` struct with its optional parent pointer becomes a nested inductive,
Go maps with zero-value defaults become association lists with a default
lookup, and fallible functions return `Except String`.

The colour value type and the token-category type live outside `style.go`
(they are declared out-of-scope external collaborators by the specification),
so they are modelled from the specification's words; every such definition
carries a doc comment starting with `Modelled from the spec:`.
-/

/-- Modelled from the spec: the external colour value type, "an RGB value with
a distinguishable unset state".  As in the source repository's encoding, the
value `0` is the unset colour and a set colour stores its 24-bit RGB value
plus one. -/
abbrev Colour := Nat

/-- Modelled from the spec: whether the colour is set (distinguishable unset
state). -/
def Colour.IsSet (c : Colour) : Bool := c != 0

/-- Hex digit character for a value below 16 (lower case), used by the
colour formatter. -/
def hexChar (d : Nat) : Char :=
  if d < 10 then Char.ofNat ('0'.toNat + d) else Char.ofNat ('a'.toNat + (d - 10))

/-- Six-digit lower-case hex rendering of a 24-bit value, most significant
digit first. -/
def toHex6 (v : Nat) : List Char :=
  [hexChar (v / 16 ^ 5 % 16), hexChar (v / 16 ^ 4 % 16), hexChar (v / 16 ^ 3 % 16),
   hexChar (v / 16 ^ 2 % 16), hexChar (v / 16 % 16), hexChar (v % 16)]

/-- Modelled from the spec: the external colour formatter, emitting a set
colour as `#RRGGBB` (the stored value minus one, in six hex digits). -/
def Colour.toText (c : Colour) : List Char :=
  '#' :: toHex6 (c - 1)

/-- Numeric value of a hex digit character, `none` for a non-hex character. -/
def hexVal (c : Char) : Option Nat :=
  if '0' ≤ c ∧ c ≤ '9' then some (c.toNat - '0'.toNat)
  else if 'a' ≤ c ∧ c ≤ 'f' then some (c.toNat - 'a'.toNat + 10)
  else if 'A' ≤ c ∧ c ≤ 'F' then some (c.toNat - 'A'.toNat + 10)
  else none

/-- Accumulating hex parser over a character list. -/
def parseHexDigits (l : List Char) : Option Nat :=
  l.foldl (fun acc c => acc.bind (fun a => (hexVal c).map (fun d => a * 16 + d))) (some 0)

/-- Modelled from the spec: the external colour parser for `#RRGGBB` literals;
returns the unset colour on malformed input. -/
def ParseColour (s : List Char) : Colour :=
  match s with
  | '#' :: rest =>
    if rest.length = 6 then
      match parseHexDigits rest with
      | some v => v + 1
      | none => 0
    else 0
  | _ => 0

/-- Modelled from the spec: the external luminance-aware brightness
adjustment ("brightened or darkened by a fixed step, direction chosen by the
colour's own luminance").  The percentage is given in hundredths; the result
is always a set colour, as it is rebuilt from explicit RGB channels. -/
def Colour.brightenOrDarken (c : Colour) (percent : Nat) : Colour :=
  let v := c - 1
  let r := v / 65536 % 256
  let g := v / 256 % 256
  let b := v % 256
  let adjust : Nat → Nat := fun ch =>
    if 2 * (r + g + b) < 765 then min 255 (ch + ch * percent / 100)
    else ch - ch * percent / 100
  (adjust r) * 65536 + (adjust g) * 256 + (adjust b) + 1

/-- Trilean value for StyleEntry value inheritance (`style.go`). -/
inductive Trilean where
  | Pass
  | Yes
  | No
deriving DecidableEq, Repr, Inhabited, BEq

/-- `Trilean.Prefix` from `style.go`: returns the attribute name, its
"no"-prefixed form, or the empty token. -/
def Trilean.prefixOf (t : Trilean) (s : List Char) : List Char :=
  if t = Trilean.Yes then s
  else if t = Trilean.No then 'n' :: 'o' :: s
  else []

/-- A StyleEntry in the Style map (`style.go`).  The three colour fields are
spelled `Nat` (the definitional unfolding of `Colour`) because the field
named `Colour` shadows the type alias inside the declaration. -/
structure StyleEntry where
  Colour : Nat := 0
  Background : Nat := 0
  Border : Nat := 0
  Bold : Trilean := Trilean.Pass
  Italic : Trilean := Trilean.Pass
  Underline : Trilean := Trilean.Pass
  NoInherit : Bool := false
deriving DecidableEq, Repr, Inhabited

/-- The token list built by `StyleEntry.String` in `style.go`: the three
trilean attributes via `Prefix`, `noinherit` if set, then the three colours. -/
def StyleEntry.tokens (s : StyleEntry) : List (List Char) :=
  (if s.Bold ≠ Trilean.Pass then [s.Bold.prefixOf ("bold".data)] else []) ++
  (if s.Italic ≠ Trilean.Pass then [s.Italic.prefixOf ("italic".data)] else []) ++
  (if s.Underline ≠ Trilean.Pass then [s.Underline.prefixOf ("underline".data)] else []) ++
  (if s.NoInherit then [("noinherit".data)] else []) ++
  (if Colour.IsSet s.Colour then [Colour.toText s.Colour] else []) ++
  (if Colour.IsSet s.Background then [("bg:".data) ++ Colour.toText s.Background] else []) ++
  (if Colour.IsSet s.Border then [("border:".data) ++ Colour.toText s.Border] else [])

/-- `strings.Join(out, " ")`: space-join a token list. -/
def joinSpace : List (List Char) → List Char
  | [] => []
  | [t] => t
  | t :: ts => t ++ ' ' :: joinSpace ts

/-- `StyleEntry.String` from `style.go`: format the entry as its
space-joined token list. -/
def StyleEntry.Format (s : StyleEntry) : String :=
  String.mk (joinSpace s.tokens)

/-- `StyleEntry.Sub` from `style.go`: subtracts `e` from `s` where elements
match (a fresh zero entry receives exactly the differing fields). -/
def StyleEntry.Sub (s e : StyleEntry) : StyleEntry :=
  { Colour := if e.Colour ≠ s.Colour then s.Colour else 0
    Background := if e.Background ≠ s.Background then s.Background else 0
    Bold := if e.Bold ≠ s.Bold then s.Bold else Trilean.Pass
    Italic := if e.Italic ≠ s.Italic then s.Italic else Trilean.Pass
    Underline := if e.Underline ≠ s.Underline then s.Underline else Trilean.Pass
    Border := if e.Border ≠ s.Border then s.Border else 0 }

/-- One iteration of the loop body of `StyleEntry.Inherit`: every field of
`out` that is still unset / `Pass` is adopted from `ancestor`; `NoInherit`
is never copied. -/
def StyleEntry.inheritOne (out ancestor : StyleEntry) : StyleEntry :=
  { Colour := if Colour.IsSet out.Colour then out.Colour else ancestor.Colour
    Background := if Colour.IsSet out.Background then out.Background else ancestor.Background
    Border := if Colour.IsSet out.Border then out.Border else ancestor.Border
    Bold := if out.Bold = Trilean.Pass then ancestor.Bold else out.Bold
    Italic := if out.Italic = Trilean.Pass then ancestor.Italic else out.Italic
    Underline := if out.Underline = Trilean.Pass then ancestor.Underline else out.Underline
    NoInherit := out.NoInherit }

/-- The loop of `StyleEntry.Inherit`, already running over the reversed
(nearest-first) ancestor list; it stops as soon as the value being resolved
has `NoInherit` set. -/
def StyleEntry.inheritLoop : StyleEntry → List StyleEntry → StyleEntry
  | out, [] => out
  | out, a :: rest =>
    if out.NoInherit then out else StyleEntry.inheritLoop (StyleEntry.inheritOne out a) rest

/-- `StyleEntry.Inherit` from `style.go`: ancestors are supplied oldest to
newest and consumed from the end of the list backwards. -/
def StyleEntry.Inherit (s : StyleEntry) (ancestors : List StyleEntry) : StyleEntry :=
  StyleEntry.inheritLoop s ancestors.reverse

/-- `StyleEntry.IsZero` from `style.go`. -/
def StyleEntry.IsZero (s : StyleEntry) : Bool :=
  s.Colour == 0 && s.Background == 0 && s.Border == 0 && s.Bold == Trilean.Pass &&
    s.Italic == Trilean.Pass && s.Underline == Trilean.Pass && !s.NoInherit

/-- The first set colour of a list, or the unset colour; describes the
nearest-wins resolution of a colour field. -/
def firstSetColour : List Colour → Colour
  | [] => 0
  | c :: cs => if Colour.IsSet c then c else firstSetColour cs

/-- The first non-`Pass` trilean of a list, or `Pass`; describes the
nearest-wins resolution of a trilean field. -/
def firstTrilean : List Trilean → Trilean
  | [] => Trilean.Pass
  | t :: ts => if t ≠ Trilean.Pass then t else firstTrilean ts

/-- `strings.Fields`: accumulator-based splitting of a character list into
maximal whitespace-free runs. -/
def fieldsAux : List Char → List Char → List (List Char)
  | [], acc => if acc = [] then [] else [acc.reverse]
  | c :: cs, acc =>
    if c.isWhitespace then
      (if acc = [] then fieldsAux cs [] else acc.reverse :: fieldsAux cs [])
    else fieldsAux cs (c :: acc)

/-- `strings.Fields` on a character list. -/
def fieldsCh (l : List Char) : List (List Char) :=
  fieldsAux l []

/-- One iteration of the `switch` in `ParseStyleEntry` (`style.go`): applies
one whitespace-separated token to the entry under construction, failing on
malformed colours and unknown tokens. -/
def parseStyleToken (out : StyleEntry) (part : List Char) : Except String StyleEntry :=
  if part = ("italic".data) then Except.ok { out with Italic := Trilean.Yes }
  else if part = ("noitalic".data) then Except.ok { out with Italic := Trilean.No }
  else if part = ("bold".data) then Except.ok { out with Bold := Trilean.Yes }
  else if part = ("nobold".data) then Except.ok { out with Bold := Trilean.No }
  else if part = ("underline".data) then Except.ok { out with Underline := Trilean.Yes }
  else if part = ("nounderline".data) then Except.ok { out with Underline := Trilean.No }
  else if part = ("inherit".data) then Except.ok { out with NoInherit := false }
  else if part = ("noinherit".data) then Except.ok { out with NoInherit := true }
  else if part = ("bg:".data) then Except.ok { out with Background := 0 }
  else if ("bg:#".data).isPrefixOf part then
    let c := ParseColour (part.drop 3)
    if Colour.IsSet c = false then
      Except.error ("invalid background colour \"" ++ String.mk part ++ "\"")
    else Except.ok { out with Background := c }
  else if ("border:#".data).isPrefixOf part then
    let c := ParseColour (part.drop 7)
    if Colour.IsSet c = false then
      Except.error ("invalid border colour \"" ++ String.mk part ++ "\"")
    else Except.ok { out with Border := c }
  else if ("#".data).isPrefixOf part then
    let c := ParseColour part
    if Colour.IsSet c = false then
      Except.error ("invalid colour \"" ++ String.mk part ++ "\"")
    else Except.ok { out with Colour := c }
  else Except.error ("unknown style element \"" ++ String.mk part ++ "\"")

/-- `ParseStyleEntry` from `style.go`: split the descriptor on whitespace and
apply the tokens left to right to a zero entry, stopping at the first
malformed token. -/
def ParseStyleEntry (entry : String) : Except String StyleEntry :=
  (fieldsCh entry.data).foldlM parseStyleToken {}

/-- A colour value is representable iff it is unset or stores a 24-bit RGB
value plus one. -/
def Colour.Valid (c : Nat) : Prop := c ≤ 16 ^ 6

/-- Modelled from the spec: the external token-category type, "an enumerable
identifier with a `Category()` and `SubCategory()` projection and a stable
name-to-identifier mapping". -/
abbrev TokenType := Int

/-- Modelled from the spec: the document background category. -/
def Background : TokenType := -1

/-- Modelled from the spec: the line-numbers category. -/
def LineNumbers : TokenType := -4

/-- Modelled from the spec: the line-numbers-in-table category. -/
def LineNumbersTable : TokenType := -5

/-- Modelled from the spec: the line-highlight category. -/
def LineHighlight : TokenType := -6

/-- Modelled from the spec: the generic text category. -/
def Text : TokenType := 8000

/-- Modelled from the spec: a representative lexical category, used by
concrete instances. -/
def Keyword : TokenType := 1000

/-- Modelled from the spec: projection of a token category to its broad
category. -/
def TokenType.Category (t : TokenType) : TokenType := t / 1000 * 1000

/-- Modelled from the spec: projection of a token category to its
sub-category. -/
def TokenType.SubCategory (t : TokenType) : TokenType := t / 100 * 100

/-- Modelled from the spec: the stable category-to-name mapping used by the
wire format and by build error messages. -/
def tokenTypeString (t : TokenType) : String :=
  if t = Background then ("Background")
  else if t = Text then ("Text")
  else if t = Keyword then ("Keyword")
  else if t = LineNumbers then ("LineNumbers")
  else if t = LineNumbersTable then ("LineNumbersTable")
  else if t = LineHighlight then ("LineHighlight")
  else ("TokenType(") ++ toString t ++ ")"

/-- Modelled from the spec: the stable name-to-category lookup used by the
wire decoder; an unresolvable name is an error. -/
def TokenTypeString (name : String) : Except String TokenType :=
  if name = "Background" then Except.ok Background
  else if name = "Text" then Except.ok Text
  else if name = "Keyword" then Except.ok Keyword
  else if name = "LineNumbers" then Except.ok LineNumbers
  else if name = "LineNumbersTable" then Except.ok LineNumbersTable
  else if name = "LineHighlight" then Except.ok LineHighlight
  else Except.error (name ++ " does not belong to TokenType values")

/-- A Style definition (`style.go`): name, theme, an entry map (association
list with the Go map's zero-value default) and an optional parent. -/
inductive Style where
  | mk (Name : String) (Theme : String) (entries : List (TokenType × StyleEntry))
      (parent : Option Style)

/-- Style name accessor. -/
def Style.Name : Style → String
  | .mk nm _ _ _ => nm

/-- Style theme accessor. -/
def Style.Theme : Style → String
  | .mk _ th _ _ => th

/-- Style entry-map accessor. -/
def Style.entries : Style → List (TokenType × StyleEntry)
  | .mk _ _ es _ => es

/-- Style parent accessor. -/
def Style.parent : Style → Option Style
  | .mk _ _ _ p => p

/-- Length of the parent chain, used as a termination measure. -/
def Style.depth : Style → Nat
  | .mk _ _ _ none => 0
  | .mk _ _ _ (some p) => p.depth + 1

/-- The oldest ancestor of the parent chain (the style where synthesis
happens). -/
def Style.root : Style → Style
  | .mk nm th es none => Style.mk nm th es none
  | .mk _ _ _ (some p) => Style.root p

/-- Go map read with zero-value default: `s.entries[ttype]`. -/
def entriesGet : List (TokenType × StyleEntry) → TokenType → StyleEntry
  | [], _ => {}
  | (t, e) :: rest, ttype => if t = ttype then e else entriesGet rest ttype

/-- Go map write: `s.entries[ttype] = entry` (replace or append). -/
def entriesPut : List (TokenType × StyleEntry) → TokenType → StyleEntry →
    List (TokenType × StyleEntry)
  | [], ttype, e => [(ttype, e)]
  | (t, e0) :: rest, ttype, e =>
    if t = ttype then (t, e) :: rest else (t, e0) :: entriesPut rest ttype e

/-- `Style.synthesisable` from `style.go` (the receiver is unused in the
source, so it is omitted here). -/
def Style.synthesisable (ttype : TokenType) : Bool :=
  ttype == LineHighlight || ttype == LineNumbers || ttype == LineNumbersTable

mutual

/-- `Style.get` from `style.go`: the style's own entry if non-zero, else the
parent chain, else a synthesised entry for the synthesisable categories,
else the zero entry. -/
def Style.get (s : Style) (ttype : TokenType) : StyleEntry :=
  match s with
  | .mk nm th es parent =>
    let out := entriesGet es ttype
    match parent with
    | some p => if out.IsZero then Style.get p ttype else out
    | none =>
      if h : out.IsZero = true ∧ Style.synthesisable ttype = true then
        Style.synthesise (Style.mk nm th es none) ttype
      else out
termination_by (s.depth, if Style.synthesisable ttype then 2 else 0)
decreasing_by
  · simp_wf
    left
    simp [Style.depth]
  · have hs : Style.synthesisable ttype = true := h.2
    rw [if_pos hs]
    exact Prod.Lex.right _ (by omega)

/-- `Style.synthesise` from `style.go`: line highlights get a background 10%
away from the resolved background's background slot; line numbers get a
foreground 50% away from the resolved background's foreground slot. -/
def Style.synthesise (s : Style) (ttype : TokenType) : StyleEntry :=
  let bg := Style.get s Background
  let text : StyleEntry := { Colour := Colour.brightenOrDarken bg.Colour 50 }
  if ttype = LineHighlight then
    { Background := Colour.brightenOrDarken bg.Background 10 }
  else if ttype = LineNumbers ∨ ttype = LineNumbersTable then text
  else {}
termination_by (s.depth, 1)
decreasing_by
  rw [if_neg (by decide)]
  exact Prod.Lex.right _ (by omega)

end

/-- `Style.Has` from `style.go`. -/
def Style.Has (s : Style) (ttype : TokenType) : Bool :=
  !(s.get ttype).IsZero || Style.synthesisable ttype

/-- `Style.Get` from `style.go`: the fully resolved entry, inheriting in
oldest-to-nearest order from background, text, category and sub-category. -/
def Style.Get (s : Style) (ttype : TokenType) : StyleEntry :=
  (s.get ttype).Inherit
    [s.get Background, s.get Text, s.get ttype.Category, s.get ttype.SubCategory]

/-- Whether no style of the parent chain has an explicit non-zero entry for
the category. -/
def Style.chainZero (ttype : TokenType) : Style → Bool
  | .mk _ _ es none => (entriesGet es ttype).IsZero
  | .mk _ _ es (some p) => (entriesGet es ttype).IsZero && Style.chainZero ttype p

/-- A StyleBuilder (`style.go`): staged raw descriptors per category, name,
theme and an optional parent. -/
structure StyleBuilder where
  entries : List (TokenType × String)
  name : String
  theme : String
  parent : Option Style

/-- The loop body of `StyleBuilder.Build`: parse every staged descriptor,
aborting with an error naming the offending category on the first failure. -/
def buildEntries : List (TokenType × String) → Except String (List (TokenType × StyleEntry))
  | [] => Except.ok []
  | (ttype, descriptor) :: rest =>
    match ParseStyleEntry descriptor with
    | Except.error err =>
      Except.error ("invalid entry for (" ++ tokenTypeString ttype ++ "): " ++ err)
    | Except.ok entry => Except.map (fun es => (ttype, entry) :: es) (buildEntries rest)

/-- `StyleBuilder.Build` from `style.go`: parse all staged descriptors and
freeze them, together with the parent reference, into an immutable Style. -/
def StyleBuilder.Build (b : StyleBuilder) : Except String Style :=
  Except.map (fun es => Style.mk b.name b.theme es b.parent) (buildEntries b.entries)

/-- Modelled from the spec: the token stream of the external tag-based wire
codec — start elements with attributes, end elements, and other tokens
(such as character data), which the decoder loop skips. -/
inductive XmlTok where
  | startEl (name : String) (attrs : List (String × String))
  | endEl (name : String)
  | charData

/-- Ascending insertion into a sorted category list. -/
def insertSortedTT (t : TokenType) : List TokenType → List TokenType
  | [] => [t]
  | x :: xs => if t ≤ x then t :: x :: xs else x :: insertSortedTT t xs

/-- The stable ascending sort of `Style.MarshalXML` (`sort.Slice` on `<`). -/
def sortTokenTypes : List TokenType → List TokenType
  | [] => []
  | x :: xs => insertSortedTT x (sortTokenTypes xs)

/-- The `entry` elements emitted by `Style.MarshalXML`, one start/end pair
per sorted category. -/
def emitEntries (es : List (TokenType × StyleEntry)) : List TokenType → List XmlTok
  | [] => []
  | t :: ts =>
    XmlTok.startEl ("entry") [("type", tokenTypeString t), ("style", StyleEntry.Format (entriesGet es t))] ::
      XmlTok.endEl ("entry") :: emitEntries es ts

/-- `Style.MarshalXML` from `style.go`: refuses styles with a parent, then
emits the root element with name and theme attributes and the sorted entry
elements. -/
def Style.MarshalXML (s : Style) : Except String (List XmlTok) :=
  match s with
  | .mk nm th es parent =>
    match parent with
    | some _ => Except.error ("cannot marshal style with parent")
    | none =>
      Except.ok
        (XmlTok.startEl ("style") [("name", nm), ("theme", th)] ::
          emitEntries es (sortTokenTypes (es.map Prod.fst)) ++ [XmlTok.endEl ("style")])

/-- Replace the name of a style (`s.Name = attr.Value`). -/
def Style.withName : Style → String → Style
  | .mk _ th es par, nm => .mk nm th es par

/-- Replace the theme of a style (`s.Theme = attr.Value`). -/
def Style.withTheme : Style → String → Style
  | .mk nm _ es par, th => .mk nm th es par

/-- Replace the entry map of a style (`s.entries = map[...]{}`). -/
def Style.withEntries : Style → List (TokenType × StyleEntry) → Style
  | .mk nm th _ par, es => .mk nm th es par

/-- Store one decoded entry (`s.entries[ttype] = entry`). -/
def Style.addEntry (s : Style) (t : TokenType) (e : StyleEntry) : Style :=
  s.withEntries (entriesPut s.entries t e)

/-- The root-attribute loop of `Style.UnmarshalXML`: `name` and `theme` are
accepted (mutating the style being decoded), anything else is an error. -/
def applyRootAttrs (s : Style) : List (String × String) → Style × Except String Unit
  | [] => (s, Except.ok ())
  | (k, v) :: rest =>
    if k = "name" then applyRootAttrs (s.withName v) rest
    else if k = "theme" then applyRootAttrs (s.withTheme v) rest
    else (s, Except.error ("unexpected attribute " ++ k))

/-- The per-entry attribute loop of `Style.UnmarshalXML`: `type` resolves the
category name, `style` parses the descriptor, anything else is an error;
missing attributes keep the zero values passed in. -/
def applyEntryAttrs (ttype : TokenType) (entry : StyleEntry) :
    List (String × String) → Except String (TokenType × StyleEntry)
  | [] => Except.ok (ttype, entry)
  | (k, v) :: rest =>
    if k = "type" then
      match TokenTypeString v with
      | Except.error e => Except.error e
      | Except.ok t => applyEntryAttrs t entry rest
    else if k = "style" then
      match ParseStyleEntry v with
      | Except.error e => Except.error e
      | Except.ok en => applyEntryAttrs ttype en rest
    else Except.error ("unexpected attribute " ++ k)

/-- The token loop of `Style.UnmarshalXML`: `entry` start elements are
decoded and stored, the matching root end element terminates successfully,
other element names are errors, and non-element tokens are skipped; an
exhausted stream is a token-read error. -/
def unmarshalEntries (rootName : String) (s : Style) :
    List XmlTok → Style × Except String Unit
  | [] => (s, Except.error ("unexpected end of input"))
  | XmlTok.startEl n attrs :: rest =>
    if n ≠ "entry" then (s, Except.error ("unexpected element " ++ n))
    else
      match applyEntryAttrs 0 {} attrs with
      | Except.error e => (s, Except.error e)
      | Except.ok (t, en) => unmarshalEntries rootName (s.addEntry t en) rest
  | XmlTok.endEl n :: rest =>
    if n = rootName then (s, Except.ok ()) else unmarshalEntries rootName s rest
  | XmlTok.charData :: rest => unmarshalEntries rootName s rest

/-- `Style.UnmarshalXML` from `style.go`, with the decoder modelled as the
root element's name and attributes plus the subsequent token stream.  The
returned style is the receiver as mutated up to the point of return. -/
def Style.UnmarshalXML (s : Style) (rootName : String)
    (rootAttrs : List (String × String)) (toks : List XmlTok) :
    Style × Except String Unit :=
  match applyRootAttrs s rootAttrs with
  | (s1, Except.error e) => (s1, Except.error e)
  | (s1, Except.ok _) =>
    if s1.Name = "" then (s1, Except.error ("missing style name attribute"))
    else if s1.Theme = "" then (s1, Except.error ("missing style theme attribute"))
    else unmarshalEntries rootName (s1.withEntries []) toks

/-- `NewXMLStyle` from `style.go`: decode into a fresh zero style and return
the style pointer together with the decode result — also when decoding
fails. -/
def NewXMLStyle (rootName : String) (rootAttrs : List (String × String))
    (toks : List XmlTok) : Style × Except String Unit :=
  Style.UnmarshalXML (Style.mk ("") "" [] none) rootName rootAttrs toks

theorem inheritOne_noInherit (out a : StyleEntry) :
    (StyleEntry.inheritOne out a).NoInherit = out.NoInherit := rfl

theorem inheritLoop_noInherit (l : List StyleEntry) (out : StyleEntry) :
    (StyleEntry.inheritLoop out l).NoInherit = out.NoInherit := by
  induction l generalizing out with
  | nil => rfl
  | cons a rest ih =>
    by_cases h : out.NoInherit
    · simp [StyleEntry.inheritLoop, h]
    · simp [StyleEntry.inheritLoop, h, ih, inheritOne_noInherit]

theorem inheritLoop_stop (l : List StyleEntry) (out : StyleEntry)
    (h : out.NoInherit = true) : StyleEntry.inheritLoop out l = out := by
  cases l with
  | nil => rfl
  | cons a rest => simp [StyleEntry.inheritLoop, h]

theorem unsetColour_eq_zero (c : Colour) (h : Colour.IsSet c = false) : c = 0 := by
  simpa [Colour.IsSet] using h

theorem inheritLoop_colourField (f : StyleEntry → Colour)
    (hf : ∀ out a, f (StyleEntry.inheritOne out a) =
      if Colour.IsSet (f out) then f out else f a) :
    ∀ (l : List StyleEntry) (out : StyleEntry), out.NoInherit = false →
      f (StyleEntry.inheritLoop out l) = firstSetColour (f out :: l.map f) := by
  intro l
  induction l with
  | nil =>
    intro out _
    by_cases h : Colour.IsSet (f out)
    · simp [StyleEntry.inheritLoop, firstSetColour, h]
    · simp only [Bool.not_eq_true] at h
      simp [StyleEntry.inheritLoop, firstSetColour, h, unsetColour_eq_zero _ h]
  | cons a rest ih =>
    intro out hni
    rw [show StyleEntry.inheritLoop out (a :: rest) =
      StyleEntry.inheritLoop (StyleEntry.inheritOne out a) rest by
        simp [StyleEntry.inheritLoop, hni]]
    rw [ih _ (by rw [inheritOne_noInherit]; exact hni)]
    by_cases h : Colour.IsSet (f out)
    · simp [firstSetColour, hf, h]
    · simp only [Bool.not_eq_true] at h
      simp [firstSetColour, hf, h]

theorem inheritLoop_trileanField (f : StyleEntry → Trilean)
    (hf : ∀ out a, f (StyleEntry.inheritOne out a) =
      if f out = Trilean.Pass then f a else f out) :
    ∀ (l : List StyleEntry) (out : StyleEntry), out.NoInherit = false →
      f (StyleEntry.inheritLoop out l) = firstTrilean (f out :: l.map f) := by
  intro l
  induction l with
  | nil =>
    intro out _
    by_cases h : f out = Trilean.Pass
    · simp [StyleEntry.inheritLoop, firstTrilean, h]
    · simp [StyleEntry.inheritLoop, firstTrilean, h]
  | cons a rest ih =>
    intro out hni
    rw [show StyleEntry.inheritLoop out (a :: rest) =
      StyleEntry.inheritLoop (StyleEntry.inheritOne out a) rest by
        simp [StyleEntry.inheritLoop, hni]]
    rw [ih _ (by rw [inheritOne_noInherit]; exact hni)]
    by_cases h : f out = Trilean.Pass
    · simp [ firstTrilean, hf, h]
    · simp [ firstTrilean, hf, h]

theorem Inherit_colour (s : StyleEntry) (ancestors : List StyleEntry)
    (h : s.NoInherit = false) :
    (s.Inherit ancestors).Colour =
      firstSetColour (s.Colour :: ancestors.reverse.map StyleEntry.Colour) := by
  exact inheritLoop_colourField StyleEntry.Colour (fun _ _ => rfl) ancestors.reverse s h

theorem Inherit_background (s : StyleEntry) (ancestors : List StyleEntry)
    (h : s.NoInherit = false) :
    (s.Inherit ancestors).Background =
      firstSetColour (s.Background :: ancestors.reverse.map StyleEntry.Background) := by
  exact inheritLoop_colourField StyleEntry.Background (fun _ _ => rfl) ancestors.reverse s h

theorem Inherit_border (s : StyleEntry) (ancestors : List StyleEntry)
    (h : s.NoInherit = false) :
    (s.Inherit ancestors).Border =
      firstSetColour (s.Border :: ancestors.reverse.map StyleEntry.Border) := by
  exact inheritLoop_colourField StyleEntry.Border (fun _ _ => rfl) ancestors.reverse s h

theorem Inherit_bold (s : StyleEntry) (ancestors : List StyleEntry)
    (h : s.NoInherit = false) :
    (s.Inherit ancestors).Bold =
      firstTrilean (s.Bold :: ancestors.reverse.map StyleEntry.Bold) := by
  exact inheritLoop_trileanField StyleEntry.Bold (fun _ _ => rfl) ancestors.reverse s h

theorem Inherit_italic (s : StyleEntry) (ancestors : List StyleEntry)
    (h : s.NoInherit = false) :
    (s.Inherit ancestors).Italic =
      firstTrilean (s.Italic :: ancestors.reverse.map StyleEntry.Italic) := by
  exact inheritLoop_trileanField StyleEntry.Italic (fun _ _ => rfl) ancestors.reverse s h

theorem Inherit_underline (s : StyleEntry) (ancestors : List StyleEntry)
    (h : s.NoInherit = false) :
    (s.Inherit ancestors).Underline =
      firstTrilean (s.Underline :: ancestors.reverse.map StyleEntry.Underline) := by
  exact inheritLoop_trileanField StyleEntry.Underline (fun _ _ => rfl) ancestors.reverse s h

theorem firstSetColour_of_set (c : Colour) (cs : List Colour) (h : Colour.IsSet c = true) :
    firstSetColour (c :: cs) = c := by
  simp [firstSetColour, h]

theorem firstTrilean_of_set (t : Trilean) (ts : List Trilean) (h : t ≠ Trilean.Pass) :
    firstTrilean (t :: ts) = t := by
  simp [ firstTrilean, h]

/-- C2: corrected. As literally stated the claim fails when the receiver has
`NoInherit` set: the loop then returns the receiver before consulting any
ancestor, so an unset field is not filled from the nearest ancestor that has
it set.  Here the receiver's foreground is unset and the single (hence
nearest) ancestor has a set foreground, yet the result keeps the unset
foreground. -/
theorem C2_counterexample :
    Colour.IsSet (StyleEntry.Inherit { NoInherit := true } [{ Colour := 5 }]).Colour = false ∧
    Colour.IsSet ({ NoInherit := true } : StyleEntry).Colour = false ∧
    Colour.IsSet ({ Colour := 5 } : StyleEntry).Colour = true ∧
    (StyleEntry.Inherit { NoInherit := true } [{ Colour := 5 }]).Colour ≠
      ({ Colour := 5 } : StyleEntry).Colour := by
  decide

/-- C2 (amended): for every StyleEntry `s` and oldest-first ancestor list,
`s.Inherit ancestors` never overwrites a field of `s` that is already set
(colour set, or trilean not `Pass`); and provided `s.NoInherit` is false,
every field of the result is the nearest-wins resolution of that field over
`s` followed by the ancestors from nearest (last) to oldest (first) — in
particular, for a field unset on `s` the nearest ancestor that has the field
set supplies its value. -/
theorem C2_inherit_priority (s : StyleEntry) (ancestors : List StyleEntry) :
    (Colour.IsSet s.Colour = true → (s.Inherit ancestors).Colour = s.Colour) ∧
    (Colour.IsSet s.Background = true → (s.Inherit ancestors).Background = s.Background) ∧
    (Colour.IsSet s.Border = true → (s.Inherit ancestors).Border = s.Border) ∧
    (s.Bold ≠ Trilean.Pass → (s.Inherit ancestors).Bold = s.Bold) ∧
    (s.Italic ≠ Trilean.Pass → (s.Inherit ancestors).Italic = s.Italic) ∧
    (s.Underline ≠ Trilean.Pass → (s.Inherit ancestors).Underline = s.Underline) ∧
    (s.NoInherit = false →
      (s.Inherit ancestors).Colour =
        firstSetColour (s.Colour :: ancestors.reverse.map StyleEntry.Colour) ∧
      (s.Inherit ancestors).Background =
        firstSetColour (s.Background :: ancestors.reverse.map StyleEntry.Background) ∧
      (s.Inherit ancestors).Border =
        firstSetColour (s.Border :: ancestors.reverse.map StyleEntry.Border) ∧
      (s.Inherit ancestors).Bold =
        firstTrilean (s.Bold :: ancestors.reverse.map StyleEntry.Bold) ∧
      (s.Inherit ancestors).Italic =
        firstTrilean (s.Italic :: ancestors.reverse.map StyleEntry.Italic) ∧
      (s.Inherit ancestors).Underline =
        firstTrilean (s.Underline :: ancestors.reverse.map StyleEntry.Underline)) := by
  by_cases hni : s.NoInherit = true
  · rw [StyleEntry.Inherit, inheritLoop_stop _ _ hni]
    exact ⟨fun _ => rfl, fun _ => rfl, fun _ => rfl, fun _ => rfl, fun _ => rfl, fun _ => rfl,
      fun hf => absurd hni (by simp [hf])⟩
  · have hni' : s.NoInherit = false := by simpa using hni
    refine ⟨?_, ?_, ?_, ?_, ?_, ?_, fun _ => ⟨Inherit_colour s _ hni', Inherit_background s _ hni',
      Inherit_border s _ hni', Inherit_bold s _ hni', Inherit_italic s _ hni',
      Inherit_underline s _ hni'⟩⟩
    · intro hset
      rw [Inherit_colour s _ hni', firstSetColour_of_set _ _ hset]
    · intro hset
      rw [Inherit_background s _ hni', firstSetColour_of_set _ _ hset]
    · intro hset
      rw [Inherit_border s _ hni', firstSetColour_of_set _ _ hset]
    · intro hset
      rw [Inherit_bold s _ hni', firstTrilean_of_set _ _ hset]
    · intro hset
      rw [Inherit_italic s _ hni', firstTrilean_of_set _ _ hset]
    · intro hset
      rw [Inherit_underline s _ hni', firstTrilean_of_set _ _ hset]

/-- Witness for C2 (amended), at the specification's own example: an entry
with `Bold = Yes` inheriting from `B = {#..3}` (oldest) and `C = {#..6}`
(nearest) keeps `Bold = Yes` and takes its foreground from `C`. -/
theorem C2_witness :
    (StyleEntry.Inherit { Bold := Trilean.Yes } [{ Colour := 3 }, { Colour := 6 }]).Bold =
      Trilean.Yes ∧
    (StyleEntry.Inherit { Bold := Trilean.Yes } [{ Colour := 3 }, { Colour := 6 }]).Colour = 6 := by
  refine ⟨(C2_inherit_priority { Bold := Trilean.Yes } [{ Colour := 3 }, { Colour := 6 }]).2.2.2.1
    (by decide), ?_⟩
  have h := (C2_inherit_priority { Bold := Trilean.Yes }
    [{ Colour := 3 }, { Colour := 6 }]).2.2.2.2.2.2 (by decide)
  exact h.1.trans (by decide)

/-- C3: confirmed. A StyleEntry with `NoInherit` set is returned unchanged by
`Inherit` for every ancestor list, and the `NoInherit` field of the result of
`Inherit` always equals the receiver's own `NoInherit` (it is never copied
from an ancestor, `inheritOne` leaving it untouched). -/
theorem C3_noInherit_semantics (s : StyleEntry) (ancestors : List StyleEntry) :
    (s.NoInherit = true → s.Inherit ancestors = s) ∧
    (s.Inherit ancestors).NoInherit = s.NoInherit := by
  constructor
  · intro h
    rw [StyleEntry.Inherit]
    exact inheritLoop_stop _ _ h
  · rw [StyleEntry.Inherit]
    exact inheritLoop_noInherit _ _

/-- Witness for C3 at a concrete entry with `NoInherit` set and a non-empty
ancestor list whose entry could otherwise fill the unset background. -/
theorem C3_witness :
    StyleEntry.Inherit { Colour := 9, NoInherit := true } [{ Colour := 5, Background := 7 }] =
      { Colour := 9, NoInherit := true } ∧
    (StyleEntry.Inherit { Colour := 9, NoInherit := true }
      [{ Colour := 5, Background := 7 }]).NoInherit = true := by
  refine ⟨(C3_noInherit_semantics { Colour := 9, NoInherit := true }
    [{ Colour := 5, Background := 7 }]).1 rfl, ?_⟩
  exact (C3_noInherit_semantics { Colour := 9, NoInherit := true }
    [{ Colour := 5, Background := 7 }]).2.trans rfl

/-- C8: corrected. `Sub` never writes the `NoInherit` field of its result
(the fresh zero entry keeps `NoInherit = false`), so a receiver whose
`NoInherit` differs from the other entry's does not keep it: the claim's
"keeps exactly those fields of s that differ" fails at the `NoInherit`
field. -/
theorem C8_counterexample :
    ({ NoInherit := true } : StyleEntry).NoInherit ≠ ({} : StyleEntry).NoInherit ∧
    (StyleEntry.Sub { NoInherit := true } {}).NoInherit ≠
      ({ NoInherit := true } : StyleEntry).NoInherit := by
  decide

/-- C8 (amended): for every pair of StyleEntry values `s` and `e`, `s.Sub e`
keeps exactly those of the six comparable fields (the three colours and the
three trileans) of `s` that differ from the corresponding field of `e`;
every comparable field equal between `s` and `e` becomes unset / `Pass` in
the result, and the result's `NoInherit` is always false. -/
theorem C8_sub_minimal_delta (s e : StyleEntry) :
    ((s.Colour ≠ e.Colour → (s.Sub e).Colour = s.Colour) ∧
      (s.Colour = e.Colour → (s.Sub e).Colour = 0)) ∧
    ((s.Background ≠ e.Background → (s.Sub e).Background = s.Background) ∧
      (s.Background = e.Background → (s.Sub e).Background = 0)) ∧
    ((s.Border ≠ e.Border → (s.Sub e).Border = s.Border) ∧
      (s.Border = e.Border → (s.Sub e).Border = 0)) ∧
    ((s.Bold ≠ e.Bold → (s.Sub e).Bold = s.Bold) ∧
      (s.Bold = e.Bold → (s.Sub e).Bold = Trilean.Pass)) ∧
    ((s.Italic ≠ e.Italic → (s.Sub e).Italic = s.Italic) ∧
      (s.Italic = e.Italic → (s.Sub e).Italic = Trilean.Pass)) ∧
    ((s.Underline ≠ e.Underline → (s.Sub e).Underline = s.Underline) ∧
      (s.Underline = e.Underline → (s.Sub e).Underline = Trilean.Pass)) ∧
    (s.Sub e).NoInherit = false := by
  refine ⟨⟨?_, ?_⟩, ⟨?_, ?_⟩, ⟨?_, ?_⟩, ⟨?_, ?_⟩, ⟨?_, ?_⟩, ⟨?_, ?_⟩, rfl⟩ <;>
    intro h <;>
    first
      | simp [StyleEntry.Sub, Ne.symm h]
      | simp [StyleEntry.Sub, h]

/-- Witness for C8 (amended) at a pair differing in foreground and bold but
agreeing on the background. -/
theorem C8_witness :
    (StyleEntry.Sub { Colour := 4, Background := 8, Bold := Trilean.Yes }
      { Colour := 2, Background := 8 }).Colour = 4 ∧
    (StyleEntry.Sub { Colour := 4, Background := 8, Bold := Trilean.Yes }
      { Colour := 2, Background := 8 }).Background = 0 ∧
    (StyleEntry.Sub { Colour := 4, Background := 8, Bold := Trilean.Yes }
      { Colour := 2, Background := 8 }).Bold = Trilean.Yes := by
  refine ⟨(C8_sub_minimal_delta _ _).1.1 (by decide),
    (C8_sub_minimal_delta _ _).2.1.2 (by decide),
    (C8_sub_minimal_delta { Colour := 4, Background := 8, Bold := Trilean.Yes }
      { Colour := 2, Background := 8 }).2.2.2.1.1 (by decide)⟩

theorem hexVal_hexChar : ∀ d, d < 16 → hexVal (hexChar d) = some d := by decide

theorem hexChar_not_ws : ∀ d, d < 16 → (hexChar d).isWhitespace = false := by decide

theorem parseHexDigits_toHex6 (v : Nat) (hv : v < 16 ^ 6) :
    parseHexDigits (toHex6 v) = some v := by
  have m5 : v / 16 ^ 5 % 16 < 16 := Nat.mod_lt _ (by norm_num)
  have m4 : v / 16 ^ 4 % 16 < 16 := Nat.mod_lt _ (by norm_num)
  have m3 : v / 16 ^ 3 % 16 < 16 := Nat.mod_lt _ (by norm_num)
  have m2 : v / 16 ^ 2 % 16 < 16 := Nat.mod_lt _ (by norm_num)
  have m1 : v / 16 % 16 < 16 := Nat.mod_lt _ (by norm_num)
  have m0 : v % 16 < 16 := Nat.mod_lt _ (by norm_num)
  simp only [parseHexDigits, toHex6, List.foldl, hexVal_hexChar _ m5, hexVal_hexChar _ m4,
    hexVal_hexChar _ m3, hexVal_hexChar _ m2, hexVal_hexChar _ m1, hexVal_hexChar _ m0,
    Option.bind, Option.map, Option.some.injEq]
  omega

theorem ParseColour_toText (c : Nat) (hset : c ≠ 0) (hb : c ≤ 16 ^ 6) :
    ParseColour (Colour.toText c) = c := by
  have hv : c - 1 < 16 ^ 6 := by omega
  have hp : parseHexDigits (toHex6 (c - 1)) = some (c - 1) := parseHexDigits_toHex6 _ hv
  have hlen : (toHex6 (c - 1)).length = 6 := rfl
  have hc1 : c - 1 + 1 = c := Nat.succ_pred_eq_of_pos (Nat.pos_of_ne_zero hset)
  simp [Colour.toText, ParseColour, hlen, hp, hc1]

theorem parseStyleToken_colour (out : StyleEntry) (c : Nat) (h1 : c ≠ 0) (h2 : c ≤ 16 ^ 6) :
    parseStyleToken out (Colour.toText c) = Except.ok { out with Colour := c } := by
  have hpc := ParseColour_toText c h1 h2
  rw [Colour.toText] at hpc ⊢
  simp +decide [parseStyleToken, List.isPrefixOf, hpc, Colour.IsSet, h1]

theorem parseStyleToken_bg (out : StyleEntry) (c : Nat) (h1 : c ≠ 0) (h2 : c ≤ 16 ^ 6) :
    parseStyleToken out (("bg:".data) ++ Colour.toText c) =
      Except.ok { out with Background := c } := by
  have hpc := ParseColour_toText c h1 h2
  rw [Colour.toText] at hpc ⊢
  simp +decide [parseStyleToken, List.isPrefixOf, hpc, Colour.IsSet, h1]

theorem parseStyleToken_border (out : StyleEntry) (c : Nat) (h1 : c ≠ 0) (h2 : c ≤ 16 ^ 6) :
    parseStyleToken out (("border:".data) ++ Colour.toText c) =
      Except.ok { out with Border := c } := by
  have hpc := ParseColour_toText c h1 h2
  rw [Colour.toText] at hpc ⊢
  simp +decide [parseStyleToken, List.isPrefixOf, hpc, Colour.IsSet, h1]

theorem fieldsAux_word (t : List Char) (h : ∀ c ∈ t, c.isWhitespace = false) :
    ∀ (rest acc : List Char), fieldsAux (t ++ rest) acc = fieldsAux rest (t.reverse ++ acc) := by
  induction t with
  | nil => intro rest acc; simp
  | cons c cs ih =>
    intro rest acc
    have hc : c.isWhitespace = false := h c (by simp)
    have hcs : ∀ x ∈ cs, x.isWhitespace = false := fun x hx => h x (by simp [hx])
    rw [List.cons_append]
    rw [show fieldsAux (c :: (cs ++ rest)) acc = fieldsAux (cs ++ rest) (c :: acc) by
      simp [fieldsAux, hc]]
    rw [ih hcs rest (c :: acc)]
    simp [List.append_assoc]

theorem fieldsCh_joinSpace : ∀ ts : List (List Char),
    (∀ t ∈ ts, t ≠ [] ∧ ∀ c ∈ t, c.isWhitespace = false) →
    fieldsCh (joinSpace ts) = ts := by
  intro ts
  induction ts with
  | nil => intro _; rfl
  | cons t ts ih =>
    intro h
    have ht := h t (by simp)
    cases ts with
    | nil =>
      have h2 := fieldsAux_word t ht.2 [] []
      rw [List.append_nil] at h2
      show fieldsAux (joinSpace [t]) [] = [t]
      rw [show joinSpace [t] = t from rfl, h2]
      simp [fieldsAux, ht.1]
    | cons t2 ts2 =>
      show fieldsAux (joinSpace (t :: t2 :: ts2)) [] = t :: t2 :: ts2
      rw [show joinSpace (t :: t2 :: ts2) = t ++ ' ' :: joinSpace (t2 :: ts2) from rfl]
      rw [fieldsAux_word t ht.2 _ []]
      rw [List.append_nil]
      have hne : t.reverse ≠ [] := by simp [ht.1]
      rw [show fieldsAux (' ' :: joinSpace (t2 :: ts2)) t.reverse =
          t.reverse.reverse :: fieldsAux (joinSpace (t2 :: ts2)) [] by
        simp [fieldsAux, hne, (by decide : (' ' : Char).isWhitespace = true)]]
      rw [List.reverse_reverse]
      exact congrArg (t :: ·) (ih (fun x hx => h x (by simp [hx])))

theorem foldParse_append (xs ys : List (List Char)) (s1 s2 s3 : StyleEntry)
    (h1 : List.foldlM parseStyleToken s1 xs = Except.ok s2)
    (h2 : List.foldlM parseStyleToken s2 ys = Except.ok s3) :
    List.foldlM parseStyleToken s1 (xs ++ ys) = Except.ok s3 := by
  rw [List.foldlM_append, h1]
  simpa using h2

theorem foldParse_single (s s2 : StyleEntry) (tok : List Char)
    (h : parseStyleToken s tok = Except.ok s2) :
    List.foldlM parseStyleToken s [tok] = Except.ok s2 := by
  simp [List.foldlM_cons, List.foldlM_nil, h]

theorem mem_if_singleton {P : Prop} [Decidable P] {t x : List Char}
    (h : t ∈ (if P then [x] else [])) : P ∧ t = x := by
  by_cases hp : P
  · simp [hp] at h
    exact ⟨hp, h⟩
  · simp [hp] at h

theorem toHex6_not_ws (v : Nat) : ∀ c ∈ toHex6 v, c.isWhitespace = false := by
  intro c hc
  simp only [toHex6, List.mem_cons, List.not_mem_nil, or_false] at hc
  rcases hc with h | h | h | h | h | h <;> subst h <;>
    exact hexChar_not_ws _ (Nat.mod_lt _ (by norm_num))

theorem toText_wf (v : Nat) :
    Colour.toText v ≠ [] ∧ ∀ c ∈ Colour.toText v, c.isWhitespace = false := by
  refine ⟨by simp [Colour.toText], ?_⟩
  intro c hc
  rw [Colour.toText] at hc
  rcases List.mem_cons.mp hc with h | h
  · subst h; decide
  · exact toHex6_not_ws _ c h

theorem tokens_wf (e : StyleEntry) :
    ∀ t ∈ e.tokens, t ≠ [] ∧ ∀ c ∈ t, c.isWhitespace = false := by
  intro t ht
  rw [StyleEntry.tokens] at ht
  rcases List.mem_append.mp ht with h | h
  · rcases List.mem_append.mp h with h | h
    · rcases List.mem_append.mp h with h | h
      · rcases List.mem_append.mp h with h | h
        · rcases List.mem_append.mp h with h | h
          · rcases List.mem_append.mp h with h | h
            · obtain ⟨hp, rfl⟩ := mem_if_singleton h
              cases hB : e.Bold
              · rw [hB] at hp; exact absurd rfl hp
              · decide
              · decide
            · obtain ⟨hp, rfl⟩ := mem_if_singleton h
              cases hI : e.Italic
              · rw [hI] at hp; exact absurd rfl hp
              · decide
              · decide
          · obtain ⟨hp, rfl⟩ := mem_if_singleton h
            cases hU : e.Underline
            · rw [hU] at hp; exact absurd rfl hp
            · decide
            · decide
        · obtain ⟨hp, rfl⟩ := mem_if_singleton h
          decide
      · obtain ⟨hp, rfl⟩ := mem_if_singleton h
        exact toText_wf e.Colour
    · obtain ⟨hp, rfl⟩ := mem_if_singleton h
      refine ⟨by simp, ?_⟩
      intro c hc
      rcases List.mem_append.mp hc with h2 | h2
      · exact (by decide : ∀ x ∈ ("bg:".data), x.isWhitespace = false) c h2
      · exact (toText_wf e.Background).2 c h2
  · obtain ⟨hp, rfl⟩ := mem_if_singleton h
    refine ⟨by simp, ?_⟩
    intro c hc
    rcases List.mem_append.mp hc with h2 | h2
    · exact (by decide : ∀ x ∈ ("border:".data), x.isWhitespace = false) c h2
    · exact (toText_wf e.Border).2 c h2

/-- C5: confirmed. For every StyleEntry whose colour fields are representable
colour values (unset, or a 24-bit RGB value in the external encoding) —
which is the case for every entry obtained by structured construction —
parsing the entry's canonical formatted text succeeds and returns a
structurally equal entry. -/
theorem C5_parse_format_roundtrip (e : StyleEntry) (hc : Colour.Valid e.Colour)
    (hb : Colour.Valid e.Background) (hr : Colour.Valid e.Border) :
    ParseStyleEntry (StyleEntry.Format e) = Except.ok e := by
  have hfields : fieldsCh (joinSpace e.tokens) = e.tokens :=
    fieldsCh_joinSpace _ (tokens_wf e)
  rw [ParseStyleEntry, StyleEntry.Format]
  rw [show (String.mk (joinSpace e.tokens)).data = joinSpace e.tokens from rfl]
  rw [hfields, StyleEntry.tokens]
  have h1 : List.foldlM parseStyleToken ({} : StyleEntry)
      (if e.Bold ≠ Trilean.Pass then [e.Bold.prefixOf ("bold".data)] else []) =
      Except.ok ⟨0, 0, 0, e.Bold, Trilean.Pass, Trilean.Pass, false⟩ := by
    cases hB : e.Bold <;> rfl
  have h2 : List.foldlM parseStyleToken
      (⟨0, 0, 0, e.Bold, Trilean.Pass, Trilean.Pass, false⟩ : StyleEntry)
      (if e.Italic ≠ Trilean.Pass then [e.Italic.prefixOf ("italic".data)] else []) =
      Except.ok ⟨0, 0, 0, e.Bold, e.Italic, Trilean.Pass, false⟩ := by
    cases hI : e.Italic <;> rfl
  have h3 : List.foldlM parseStyleToken
      (⟨0, 0, 0, e.Bold, e.Italic, Trilean.Pass, false⟩ : StyleEntry)
      (if e.Underline ≠ Trilean.Pass then [e.Underline.prefixOf ("underline".data)] else []) =
      Except.ok ⟨0, 0, 0, e.Bold, e.Italic, e.Underline, false⟩ := by
    cases hU : e.Underline <;> rfl
  have h4 : List.foldlM parseStyleToken
      (⟨0, 0, 0, e.Bold, e.Italic, e.Underline, false⟩ : StyleEntry)
      (if e.NoInherit then [("noinherit".data)] else []) =
      Except.ok ⟨0, 0, 0, e.Bold, e.Italic, e.Underline, e.NoInherit⟩ := by
    cases hN : e.NoInherit <;> rfl
  have h5 : List.foldlM parseStyleToken
      (⟨0, 0, 0, e.Bold, e.Italic, e.Underline, e.NoInherit⟩ : StyleEntry)
      (if Colour.IsSet e.Colour then [Colour.toText e.Colour] else []) =
      Except.ok ⟨e.Colour, 0, 0, e.Bold, e.Italic, e.Underline, e.NoInherit⟩ := by
    by_cases hC : Colour.IsSet e.Colour = true
    · have hne : e.Colour ≠ 0 := by simpa [Colour.IsSet] using hC
      rw [if_pos hC]
      exact foldParse_single _ _ _ (parseStyleToken_colour _ _ hne hc)
    · have h0 : e.Colour = 0 := unsetColour_eq_zero _ (by simpa using hC)
      rw [if_neg hC, h0]
      rfl
  have h6 : List.foldlM parseStyleToken
      (⟨e.Colour, 0, 0, e.Bold, e.Italic, e.Underline, e.NoInherit⟩ : StyleEntry)
      (if Colour.IsSet e.Background then [("bg:".data) ++ Colour.toText e.Background] else []) =
      Except.ok ⟨e.Colour, e.Background, 0, e.Bold, e.Italic, e.Underline, e.NoInherit⟩ := by
    by_cases hC : Colour.IsSet e.Background = true
    · have hne : e.Background ≠ 0 := by simpa [Colour.IsSet] using hC
      rw [if_pos hC]
      exact foldParse_single _ _ _ (parseStyleToken_bg _ _ hne hb)
    · have h0 : e.Background = 0 := unsetColour_eq_zero _ (by simpa using hC)
      rw [if_neg hC, h0]
      rfl
  have h7 : List.foldlM parseStyleToken
      (⟨e.Colour, e.Background, 0, e.Bold, e.Italic, e.Underline, e.NoInherit⟩ : StyleEntry)
      (if Colour.IsSet e.Border then [("border:".data) ++ Colour.toText e.Border] else []) =
      Except.ok ⟨e.Colour, e.Background, e.Border, e.Bold, e.Italic, e.Underline,
        e.NoInherit⟩ := by
    by_cases hC : Colour.IsSet e.Border = true
    · have hne : e.Border ≠ 0 := by simpa [Colour.IsSet] using hC
      rw [if_pos hC]
      exact foldParse_single _ _ _ (parseStyleToken_border _ _ hne hr)
    · have h0 : e.Border = 0 := unsetColour_eq_zero _ (by simpa using hC)
      rw [if_neg hC, h0]
      rfl
  exact foldParse_append _ _ _ _ _ (foldParse_append _ _ _ _ _ (foldParse_append _ _ _ _ _
    (foldParse_append _ _ _ _ _ (foldParse_append _ _ _ _ _ (foldParse_append _ _ _ _ _
      h1 h2) h3) h4) h5) h6) h7

/-- Witness for C5 at a concrete entry with set foreground and border, a
negative underline, bold, and the no-inherit flag. -/
theorem C5_witness :
    ParseStyleEntry (StyleEntry.Format
      ⟨5, 0, 17, Trilean.Yes, Trilean.Pass, Trilean.No, true⟩) =
      Except.ok ⟨5, 0, 17, Trilean.Yes, Trilean.Pass, Trilean.No, true⟩ :=
  C5_parse_format_roundtrip ⟨5, 0, 17, Trilean.Yes, Trilean.Pass, Trilean.No, true⟩
    (by simp [Colour.Valid]) (by simp [Colour.Valid]) (by simp [Colour.Valid])

theorem Style.get_own (nm th : String) (es : List (TokenType × StyleEntry))
    (par : Option Style) (ttype : TokenType) (hz : (entriesGet es ttype).IsZero = false) :
    Style.get (Style.mk nm th es par) ttype = entriesGet es ttype := by
  cases par <;> simp [Style.get, hz]

theorem Style.get_parent (nm th : String) (es : List (TokenType × StyleEntry))
    (p : Style) (ttype : TokenType) (hz : (entriesGet es ttype).IsZero = true) :
    Style.get (Style.mk nm th es (some p)) ttype = Style.get p ttype := by
  simp [Style.get, hz]

theorem Style.get_root_synth (nm th : String) (es : List (TokenType × StyleEntry))
    (ttype : TokenType) (hz : (entriesGet es ttype).IsZero = true)
    (hs : Style.synthesisable ttype = true) :
    Style.get (Style.mk nm th es none) ttype =
      Style.synthesise (Style.mk nm th es none) ttype := by
  simp [Style.get, hz, hs]

theorem Style.synthesise_lines (s : Style) (ttype : TokenType)
    (h : ttype = LineNumbers ∨ ttype = LineNumbersTable) :
    Style.synthesise s ttype =
      { Colour := Colour.brightenOrDarken (Style.get s Background).Colour 50 } := by
  rcases h with h | h <;> subst h <;>
    simp [Style.synthesise, LineNumbers, LineNumbersTable, LineHighlight]

theorem Style.parentInduction (P : Style → Prop)
    (h : ∀ nm th es par, (∀ p, par = some p → P p) → P (Style.mk nm th es par)) :
    ∀ s, P s := by
  intro s
  match s with
  | .mk nm th es none => exact h nm th es none (by intro p hp; cases hp)
  | .mk nm th es (some p) =>
    exact h nm th es (some p) (by intro x hx; cases hx; exact Style.parentInduction P h p)

theorem brightenOrDarken_ne_zero (c p : Nat) : Colour.brightenOrDarken c p ≠ 0 := by
  simp [Colour.brightenOrDarken]

theorem get_of_chainZero (ttype : TokenType) (hs : Style.synthesisable ttype = true) :
    ∀ s : Style, Style.chainZero ttype s = true →
      Style.get s ttype = Style.synthesise (Style.root s) ttype := by
  intro s
  induction s using Style.parentInduction with
  | h nm th es par ih =>
    intro hz
    cases par with
    | none =>
      rw [show Style.chainZero ttype (Style.mk nm th es none) =
        (entriesGet es ttype).IsZero from rfl] at hz
      rw [Style.get_root_synth nm th es ttype hz hs]
      rw [show Style.root (Style.mk nm th es none) = Style.mk nm th es none from rfl]
    | some p =>
      rw [show Style.chainZero ttype (Style.mk nm th es (some p)) =
        ((entriesGet es ttype).IsZero && Style.chainZero ttype p) from rfl] at hz
      rw [Bool.and_eq_true] at hz
      rw [Style.get_parent nm th es p ttype hz.1]
      rw [show Style.root (Style.mk nm th es (some p)) = Style.root p from rfl]
      exact ih p rfl hz.2

/-- C1: confirmed. `Style.Get` is literally `get` of the exact category
inherited against, in oldest-to-nearest order, the resolved background, text,
category and sub-category entries; consequently (whenever the exact entry
does not carry `NoInherit`) every field of the result is the nearest-wins
resolution over exact entry, sub-category, category, text and background, in
that priority order. -/
theorem C1_get_fallback_priority (s : Style) (ttype : TokenType) :
    Style.Get s ttype = (Style.get s ttype).Inherit
      [Style.get s Background, Style.get s Text,
       Style.get s ttype.Category, Style.get s ttype.SubCategory] ∧
    ((Style.get s ttype).NoInherit = false →
      (Style.Get s ttype).Colour = firstSetColour
        [(Style.get s ttype).Colour, (Style.get s ttype.SubCategory).Colour,
         (Style.get s ttype.Category).Colour, (Style.get s Text).Colour,
         (Style.get s Background).Colour] ∧
      (Style.Get s ttype).Background = firstSetColour
        [(Style.get s ttype).Background, (Style.get s ttype.SubCategory).Background,
         (Style.get s ttype.Category).Background, (Style.get s Text).Background,
         (Style.get s Background).Background] ∧
      (Style.Get s ttype).Border = firstSetColour
        [(Style.get s ttype).Border, (Style.get s ttype.SubCategory).Border,
         (Style.get s ttype.Category).Border, (Style.get s Text).Border,
         (Style.get s Background).Border] ∧
      (Style.Get s ttype).Bold = firstTrilean
        [(Style.get s ttype).Bold, (Style.get s ttype.SubCategory).Bold,
         (Style.get s ttype.Category).Bold, (Style.get s Text).Bold,
         (Style.get s Background).Bold] ∧
      (Style.Get s ttype).Italic = firstTrilean
        [(Style.get s ttype).Italic, (Style.get s ttype.SubCategory).Italic,
         (Style.get s ttype.Category).Italic, (Style.get s Text).Italic,
         (Style.get s Background).Italic] ∧
      (Style.Get s ttype).Underline = firstTrilean
        [(Style.get s ttype).Underline, (Style.get s ttype.SubCategory).Underline,
         (Style.get s ttype.Category).Underline, (Style.get s Text).Underline,
         (Style.get s Background).Underline]) := by
  refine ⟨rfl, fun hni => ⟨?_, ?_, ?_, ?_, ?_, ?_⟩⟩
  · simpa using Inherit_colour (Style.get s ttype)
      [Style.get s Background, Style.get s Text,
       Style.get s ttype.Category, Style.get s ttype.SubCategory] hni
  · simpa using Inherit_background (Style.get s ttype)
      [Style.get s Background, Style.get s Text,
       Style.get s ttype.Category, Style.get s ttype.SubCategory] hni
  · simpa using Inherit_border (Style.get s ttype)
      [Style.get s Background, Style.get s Text,
       Style.get s ttype.Category, Style.get s ttype.SubCategory] hni
  · simpa using Inherit_bold (Style.get s ttype)
      [Style.get s Background, Style.get s Text,
       Style.get s ttype.Category, Style.get s ttype.SubCategory] hni
  · simpa using Inherit_italic (Style.get s ttype)
      [Style.get s Background, Style.get s Text,
       Style.get s ttype.Category, Style.get s ttype.SubCategory] hni
  · simpa using Inherit_underline (Style.get s ttype)
      [Style.get s Background, Style.get s Text,
       Style.get s ttype.Category, Style.get s ttype.SubCategory] hni

/-- Witness for C1 at a one-level style that defines only a keyword
foreground and a background entry: the keyword's own foreground wins, and
the background fills the background slot. -/
theorem C1_witness :
    (Style.Get (Style.mk ("w") "t" [(Keyword, { Colour := 5 }), (Background, { Background := 9 })]
      none) Keyword).Colour = 5 := by
  have h := (C1_get_fallback_priority
    (Style.mk ("w") "t" [(Keyword, { Colour := 5 }), (Background, { Background := 9 })] none)
    Keyword).2 (by simp [Style.get, entriesGet, StyleEntry.IsZero, Style.synthesisable,
      Keyword, LineHighlight, LineNumbers, LineNumbersTable])
  refine h.1.trans ?_
  simp [Style.get, entriesGet, StyleEntry.IsZero, Style.synthesisable, firstSetColour,
    Colour.IsSet, Keyword, Background, Text, LineHighlight, LineNumbers, LineNumbersTable,
    TokenType.Category, TokenType.SubCategory]

/-- C7: corrected. Synthesis happens at the end of the parent chain: `get`
recurses into the parent before considering synthesis, so the synthesised
line-numbers entry is brightened from the ROOT ancestor's background entry,
not from the background entry resolved at the queried style.  With a child
that overrides Background (foreground slot 2) over a root whose Background
entry has foreground slot 1, and no line-numbers entry anywhere, the
resolved line-numbers foreground is brightened from 1, not from the
child-resolved 2. -/
theorem C7_counterexample :
    Style.chainZero LineNumbers
      (Style.mk ("c") "t" [(Background, { Colour := 2 })]
        (some (Style.mk ("r") "t" [(Background, { Colour := 1 })] none))) = true ∧
    Style.chainZero LineNumbersTable
      (Style.mk ("c") "t" [(Background, { Colour := 2 })]
        (some (Style.mk ("r") "t" [(Background, { Colour := 1 })] none))) = true ∧
    (Style.Get (Style.mk ("c") "t" [(Background, { Colour := 2 })]
        (some (Style.mk ("r") "t" [(Background, { Colour := 1 })] none))) LineNumbers).Colour ≠
      Colour.brightenOrDarken
        (Style.get (Style.mk ("c") "t" [(Background, { Colour := 2 })]
          (some (Style.mk ("r") "t" [(Background, { Colour := 1 })] none))) Background).Colour
        50 := by
  refine ⟨by decide, by decide, ?_⟩
  have h2 : Style.get (Style.mk ("c") "t" [(Background, { Colour := 2 })]
      (some (Style.mk ("r") "t" [(Background, { Colour := 1 })] none))) LineNumbers =
      { Colour := 1 } := by
    rw [Style.get_parent _ _ _ _ _ (by decide)]
    rw [Style.get_root_synth _ _ _ _ (by decide) (by decide)]
    rw [Style.synthesise_lines _ _ (Or.inl rfl)]
    rw [Style.get_own _ _ _ _ _ (by decide)]
    decide
  have hb : Style.get (Style.mk ("c") "t" [(Background, { Colour := 2 })]
      (some (Style.mk ("r") "t" [(Background, { Colour := 1 })] none))) Background =
      { Colour := 2 } := by
    rw [Style.get_own _ _ _ _ _ (by decide)]
    decide
  rw [Style.Get, h2, hb]
  rw [Inherit_colour _ _ rfl, firstSetColour_of_set _ _ (by decide)]
  decide

/-- C7 (amended): for every Style whose chain holds no explicit non-zero
entry for the line-numbers or line-numbers-table category, `Get` for either
category yields an entry whose foreground colour is the foreground-colour
slot (not the background slot) of the Background entry resolved at the ROOT
of the parent chain — where synthesis runs — brightened or darkened by 50%;
and `Has` for either category still returns true. -/
theorem C7_synthesised_line_numbers (s : Style)
    (h1 : Style.chainZero LineNumbers s = true)
    (h2 : Style.chainZero LineNumbersTable s = true) :
    (Style.Get s LineNumbers).Colour =
      Colour.brightenOrDarken (Style.get (Style.root s) Background).Colour 50 ∧
    (Style.Get s LineNumbersTable).Colour =
      Colour.brightenOrDarken (Style.get (Style.root s) Background).Colour 50 ∧
    Style.Has s LineNumbers = true ∧ Style.Has s LineNumbersTable = true := by
  have key : ∀ t : TokenType, t = LineNumbers ∨ t = LineNumbersTable →
      Style.chainZero t s = true → (Style.Get s t).Colour =
        Colour.brightenOrDarken (Style.get (Style.root s) Background).Colour 50 := by
    intro t hts hz
    have hsyn : Style.synthesisable t = true := by
      rcases hts with h | h <;> subst h <;> decide
    have hget : Style.get s t = Style.synthesise (Style.root s) t :=
      get_of_chainZero t hsyn s hz
    have hsynth : Style.synthesise (Style.root s) t =
        { Colour := Colour.brightenOrDarken (Style.get (Style.root s) Background).Colour 50 } :=
      Style.synthesise_lines _ _ hts
    rw [Style.Get, hget, hsynth]
    rw [Inherit_colour _ _ rfl]
    exact firstSetColour_of_set _ _ (by simp [Colour.IsSet, brightenOrDarken_ne_zero])
  refine ⟨key LineNumbers (Or.inl rfl) h1, key LineNumbersTable (Or.inr rfl) h2, ?_, ?_⟩
  · rw [Style.Has]
    simp [(by decide : Style.synthesisable LineNumbers = true)]
  · rw [Style.Has]
    simp [(by decide : Style.synthesisable LineNumbersTable = true)]

/-- Witness for C7 (amended) at a parent-less style with Background
foreground slot 2 and no line-numbers entry: the synthesised line-numbers
foreground is the 50%-adjusted 2, and `Has` still holds. -/
theorem C7_witness :
    (Style.Get (Style.mk ("w") "t" [(Background, { Colour := 2 })] none) LineNumbers).Colour = 2 ∧
    Style.Has (Style.mk ("w") "t" [(Background, { Colour := 2 })] none) LineNumbers = true := by
  have h := C7_synthesised_line_numbers (Style.mk ("w") "t" [(Background, { Colour := 2 })] none)
    (by decide) (by decide)
  refine ⟨h.1.trans ?_, h.2.2.1⟩
  rw [show Style.root (Style.mk ("w") "t" [(Background, { Colour := 2 })] none) =
    Style.mk ("w") "t" [(Background, { Colour := 2 })] none from rfl]
  rw [Style.get_own _ _ _ _ _ (by decide)]
  decide

theorem buildEntries_ok (l : List (TokenType × String))
    (h : ∀ p ∈ l, ∃ en, ParseStyleEntry p.2 = Except.ok en) :
    buildEntries l =
      Except.ok (l.map (fun p => (p.1, (ParseStyleEntry p.2).toOption.getD {}))) := by
  induction l with
  | nil => rfl
  | cons p rest ih =>
    obtain ⟨t, d⟩ := p
    obtain ⟨en, hen⟩ := h (t, d) (by simp)
    simp only [buildEntries, hen, ih (fun q hq => h q (by simp [hq])), Except.map, List.map]
    simp [hen, Except.toOption]

theorem buildEntries_err (l : List (TokenType × String))
    (h : ∃ p ∈ l, ∃ err, ParseStyleEntry p.2 = Except.error err) :
    ∃ t d err, (t, d) ∈ l ∧ ParseStyleEntry d = Except.error err ∧
      buildEntries l =
        Except.error ("invalid entry for (" ++ tokenTypeString t ++ "): " ++ err) := by
  induction l with
  | nil => simp at h
  | cons p rest ih =>
    obtain ⟨t, d⟩ := p
    cases hpd : ParseStyleEntry d with
    | error err =>
      exact ⟨t, d, err, by simp, hpd, by simp [buildEntries, hpd]⟩
    | ok en =>
      have hrest : ∃ q ∈ rest, ∃ err, ParseStyleEntry q.2 = Except.error err := by
        obtain ⟨q, hq, err, herr⟩ := h
        rcases List.mem_cons.mp hq with h1 | h1
        · subst h1
          rw [hpd] at herr
          cases herr
        · exact ⟨q, h1, err, herr⟩
      obtain ⟨t2, d2, err2, hmem, herr2, hbuild⟩ := ih hrest
      exact ⟨t2, d2, err2, by simp [hmem], herr2, by simp [buildEntries, hpd, hbuild, Except.map]⟩

theorem buildEntries_ok_inv (l : List (TokenType × String))
    (es : List (TokenType × StyleEntry)) (h : buildEntries l = Except.ok es) :
    ∀ p ∈ l, ∃ en, ParseStyleEntry p.2 = Except.ok en := by
  induction l generalizing es with
  | nil => intro p hp; simp at hp
  | cons p rest ih =>
    obtain ⟨t, d⟩ := p
    intro q hq
    cases hpd : ParseStyleEntry d with
    | error err => rw [buildEntries, hpd] at h; cases h
    | ok en =>
      rcases List.mem_cons.mp hq with h1 | h1
      · subst h1; exact ⟨en, hpd⟩
      · rw [buildEntries, hpd] at h
        cases hrest : buildEntries rest with
        | error e2 => rw [hrest] at h; cases h
        | ok es2 => exact ih es2 hrest q h1

/-- C4: confirmed. `Build` is atomic: if every staged descriptor parses, the
result is a Style holding exactly the parsed entries together with the
builder's name, theme and parent reference; if any staged descriptor fails
to parse, `Build` returns no Style but an error naming the offending
category and carrying the underlying parse error. -/
theorem C4_build_atomic (b : StyleBuilder) :
    ((∀ p ∈ b.entries, ∃ en, ParseStyleEntry p.2 = Except.ok en) →
      StyleBuilder.Build b = Except.ok (Style.mk b.name b.theme
        (b.entries.map (fun p => (p.1, (ParseStyleEntry p.2).toOption.getD {}))) b.parent)) ∧
    ((∃ p ∈ b.entries, ∃ err, ParseStyleEntry p.2 = Except.error err) →
      ∃ t d err, (t, d) ∈ b.entries ∧ ParseStyleEntry d = Except.error err ∧
        StyleBuilder.Build b =
          Except.error ("invalid entry for (" ++ tokenTypeString t ++ "): " ++ err)) := by
  constructor
  · intro h
    rw [StyleBuilder.Build, buildEntries_ok b.entries h]
    rfl
  · intro h
    obtain ⟨t, d, err, hmem, herr, hbuild⟩ := buildEntries_err b.entries h
    exact ⟨t, d, err, hmem, herr, by rw [StyleBuilder.Build, hbuild]; rfl⟩

/-- Witness for C4: a builder whose two descriptors parse yields exactly the
parsed entries; a builder staging the invalid descriptor `bogus` for the
Text category fails with an error naming Text and the parse error. -/
theorem C4_witness :
    StyleBuilder.Build ⟨[(Keyword, "bold"), (Background, "#000001")], "n", "t", none⟩ =
      Except.ok (Style.mk ("n") "t"
        [(Keyword, { Bold := Trilean.Yes }), (Background, { Colour := 2 })] none) ∧
    (∃ t d err, (t, d) ∈ [(Keyword, "bold"), (Text, "bogus")] ∧
      ParseStyleEntry d = Except.error err ∧
      StyleBuilder.Build ⟨[(Keyword, "bold"), (Text, "bogus")], "n", "t", none⟩ =
        Except.error ("invalid entry for (" ++ tokenTypeString t ++ "): " ++ err)) := by
  constructor
  · refine ((C4_build_atomic ⟨[(Keyword, "bold"), (Background, "#000001")], "n", "t", none⟩).1
      ?_).trans (by rfl)
    intro p hp
    rcases List.mem_cons.mp hp with h1 | h1
    · subst h1; exact ⟨{ Bold := Trilean.Yes }, rfl⟩
    · rcases List.mem_cons.mp h1 with h2 | h2
      · subst h2; exact ⟨{ Colour := 2 }, rfl⟩
      · simp at h2
  · exact (C4_build_atomic ⟨[(Keyword, "bold"), (Text, "bogus")], "n", "t", none⟩).2
      ⟨(Text, "bogus"), by decide, "unknown style element \"bogus\"", by rfl⟩

/-- C9: confirmed. Wire encoding fails (with the `cannot marshal style with
parent` error) whenever the style has a non-nil parent, and a successful
encoding implies the style is parent-less. -/
theorem C9_marshal_requires_flat (s : Style) :
    (Style.parent s ≠ none →
      Style.MarshalXML s = Except.error ("cannot marshal style with parent")) ∧
    (∀ toks, Style.MarshalXML s = Except.ok toks → Style.parent s = none) := by
  obtain ⟨nm, th, es, par⟩ := s
  cases par with
  | none =>
    refine ⟨fun h => absurd rfl h, fun toks _ => rfl⟩
  | some p =>
    refine ⟨fun _ => rfl, fun toks h => ?_⟩
    cases h

/-- Witness for C9: a style with a parent fails to encode; a flattened copy
of the same style encodes, and the theorem recovers its parent-lessness from
that success. -/
theorem C9_witness :
    Style.MarshalXML (Style.mk ("n") "t" [(Keyword, { Bold := Trilean.Yes })]
      (some (Style.mk ("p") "t" [] none))) =
      Except.error ("cannot marshal style with parent") ∧
    Style.parent (Style.mk ("n") "t" [(Keyword, { Bold := Trilean.Yes })] none) = none := by
  constructor
  · exact (C9_marshal_requires_flat (Style.mk ("n") "t" [(Keyword, { Bold := Trilean.Yes })]
      (some (Style.mk ("p") "t" [] none)))).1 (by simp [Style.parent])
  · exact (C9_marshal_requires_flat
      (Style.mk ("n") "t" [(Keyword, { Bold := Trilean.Yes })] none)).2 _ rfl

/-- C6: corrected. `Build` is all-or-nothing, but wire decoding is not: on a
decode error the (partially mutated) style decoded so far is returned
together with the error.  Decoding a document whose second entry carries an
invalid descriptor fails, yet the returned style already holds the first
decoded entry and the root attributes. -/
theorem C6_counterexample :
    (NewXMLStyle ("style") [("name", "n"), ("theme", "t")]
      [XmlTok.startEl ("entry") [("type", "Keyword"), ("style", "bold")], XmlTok.endEl ("entry"),
       XmlTok.startEl ("entry") [("type", "Text"), ("style", "bogus")], XmlTok.endEl ("entry"),
       XmlTok.endEl ("style")]).2 = Except.error ("unknown style element \"bogus\"") ∧
    Style.entries (NewXMLStyle ("style") [("name", "n"), ("theme", "t")]
      [XmlTok.startEl ("entry") [("type", "Keyword"), ("style", "bold")], XmlTok.endEl ("entry"),
       XmlTok.startEl ("entry") [("type", "Text"), ("style", "bogus")], XmlTok.endEl ("entry"),
       XmlTok.endEl ("style")]).1 = [(Keyword, { Bold := Trilean.Yes })] ∧
    Style.Name (NewXMLStyle ("style") [("name", "n"), ("theme", "t")]
      [XmlTok.startEl ("entry") [("type", "Keyword"), ("style", "bold")], XmlTok.endEl ("entry"),
       XmlTok.startEl ("entry") [("type", "Text"), ("style", "bogus")], XmlTok.endEl ("entry"),
       XmlTok.endEl ("style")]).1 = "n" := by
  exact ⟨rfl, rfl, rfl⟩

/-- C6 (amended): `StyleBuilder.Build` is all-or-nothing — a successful
build implies every staged descriptor parsed, and a failed build returns no
Style at all.  Wire decoding is not all-or-nothing: `NewXMLStyle` /
`Style.UnmarshalXML` return the partially populated style alongside the
error (here: non-empty entries despite a failed decode), so callers must
discard the style when the error is non-nil. -/
theorem C6_build_atomic_decode_leaky :
    (∀ (b : StyleBuilder) (st : Style), StyleBuilder.Build b = Except.ok st →
      ∀ p ∈ b.entries, ∃ en, ParseStyleEntry p.2 = Except.ok en) ∧
    (∀ (b : StyleBuilder) (err : String), StyleBuilder.Build b = Except.error err →
      ∀ st : Style, StyleBuilder.Build b ≠ Except.ok st) ∧
    ((NewXMLStyle ("style") [("name", "x"), ("theme", "y")]
      [XmlTok.startEl ("entry") [("type", "Background"), ("style", "bg:#000000")],
       XmlTok.endEl ("entry"),
       XmlTok.startEl ("entry") [("type", "Text"), ("style", "wavy")], XmlTok.endEl ("entry"),
       XmlTok.endEl ("style")]).2 ≠ Except.ok () ∧
     Style.entries (NewXMLStyle ("style") [("name", "x"), ("theme", "y")]
      [XmlTok.startEl ("entry") [("type", "Background"), ("style", "bg:#000000")],
       XmlTok.endEl ("entry"),
       XmlTok.startEl ("entry") [("type", "Text"), ("style", "wavy")], XmlTok.endEl ("entry"),
       XmlTok.endEl ("style")]).1 ≠ []) := by
  refine ⟨?_, ?_, fun hc => Except.noConfusion hc, fun hc => List.noConfusion hc⟩
  · intro b st h p hp
    cases hb : buildEntries b.entries with
    | error e =>
      rw [StyleBuilder.Build, hb] at h
      cases h
    | ok es => exact buildEntries_ok_inv b.entries es hb p hp
  · intro b err h st hc
    rw [h] at hc
    cases hc

/-- Witness for C6 (amended): a successful one-entry build certifies, via
the theorem, that its staged descriptor parses. -/
theorem C6_witness : ∃ en, ParseStyleEntry ("bold") = Except.ok en :=
  C6_build_atomic_decode_leaky.1 ⟨[(Keyword, "bold")], "n", "t", none⟩ _ rfl
    (Keyword, "bold") (by decide)

/-- C10: confirmed. The wire decoder accepts an `entry` element lacking the
`type` and/or `style` attribute without error; the missing attribute keeps
its zero value, so the element is silently stored as an entry (possibly the
zero StyleEntry) under the zero-valued token category. -/
theorem C10_missing_entry_attrs (nm th : String) (h1 : nm ≠ "") (h2 : th ≠ "") :
    NewXMLStyle ("style") [("name", nm), ("theme", th)]
      [XmlTok.startEl ("entry") [], XmlTok.endEl ("entry"), XmlTok.endEl ("style")] =
      (Style.mk nm th [(0, {})] none, Except.ok ()) ∧
    NewXMLStyle ("style") [("name", nm), ("theme", th)]
      [XmlTok.startEl ("entry") [("type", "Keyword")], XmlTok.endEl ("entry"),
       XmlTok.endEl ("style")] =
      (Style.mk nm th [(Keyword, {})] none, Except.ok ()) ∧
    NewXMLStyle ("style") [("name", nm), ("theme", th)]
      [XmlTok.startEl ("entry") [("style", "bold")], XmlTok.endEl ("entry"), XmlTok.endEl ("style")] =
      (Style.mk nm th [(0, { Bold := Trilean.Yes })] none, Except.ok ()) := by
  have hk : TokenTypeString ("Keyword") = Except.ok Keyword := rfl
  have hbold : ParseStyleEntry ("bold") = Except.ok { Bold := Trilean.Yes } := rfl
  refine ⟨?_, ?_, ?_⟩ <;>
    simp [NewXMLStyle, Style.UnmarshalXML, applyRootAttrs, applyEntryAttrs, unmarshalEntries,
      Style.withName, Style.withTheme, Style.withEntries, Style.addEntry, entriesPut,
      Style.Name, Style.Theme, Style.entries, h1, h2, hk, hbold]

/-- Witness for C10 at the concrete name `n` and theme `t`. -/
theorem C10_witness :
    NewXMLStyle ("style") [("name", "n"), ("theme", "t")]
      [XmlTok.startEl ("entry") [], XmlTok.endEl ("entry"), XmlTok.endEl ("style")] =
      (Style.mk ("n") "t" [(0, {})] none, Except.ok ()) :=
  (C10_missing_entry_attrs ("n") "t" (by decide) (by decide)).1
